import Mathlib

/-!
# Verification of the `lambda_image_hash` handler

A shallow embedding of `src/main.rs`: an AWS Lambda handler that fetches an
object from S3, decodes it as an image, computes a perceptual hash with a
selectable algorithm (defaulting to `Gradient`), and returns the base64-encoded
hash together with the image dimensions, the algorithm used, and the wall-clock
duration of the hashing step.

External collaborators (the S3 client, the image decoder, the hash transform)
are modelled as arbitrary stage functions bundled in a `Stages` record; the
handler `put_object` is translated statement by statement from the Rust source.
Wall-clock time is modelled by threading a rational-valued clock that each
stage advances by a stage-specific duration; `Instant::now` reads the clock.
-/

namespace ImageHash

/-- The hash-algorithm selector. The enumeration itself lives in the external
`image_hasher` crate; the variant list follows the spec's data model
({Mean, Gradient, VertGradient, DoubleGradient, BlockMean, Median, Blockhash,
DCT}). The handler source only names `HashAlg::Gradient` directly. -/
inductive HashAlg
  | Mean
  | Gradient
  | VertGradient
  | DoubleGradient
  | BlockMean
  | Median
  | Blockhash
  | DCT
deriving DecidableEq, Repr

/-- The `TypedError` enum of `src/main.rs` (lines 11-19): `S3Get` carries no
payload; `S3Download` and `InvalidFormat` each carry one string. -/
inductive TypedError
  | S3Get
  | S3Download (reason : String)
  | InvalidFormat (reason : String)
deriving DecidableEq, Repr

/-- The `thiserror`-derived `Display` rendering of each `TypedError` variant,
from the `#[error("...")]` attributes in the source. -/
def TypedError.message : TypedError → String
  | .S3Get => "Failed to retrieve from S3"
  | .S3Download reason => "Failed to download from S3: `" ++ reason ++ "`"
  | .InvalidFormat reason => "Invalid image format `" ++ reason ++ "` guessed"

/-- The inbound `Request` struct: a target key and an optional algorithm. -/
structure Request where
  path : String
  algo : Option HashAlg
deriving DecidableEq, Repr

/-- The outbound `Response` struct. `time_elapsed` is an `f64` of seconds in
the source, obtained from a `Duration` by `as_secs_f64`; a `Duration` is an
integer count of nanoseconds, so the duration is modelled exactly as that
count and the final conversion to seconds is presentation only. -/
structure Response where
  hash_base64 : String
  algo : HashAlg
  image_size : Nat × Nat
  time_elapsed : Nat
deriving DecidableEq, Repr

/-- The `GetObjectOutput` of the S3 SDK, abstracted: it holds an opaque body
stream, modelled as a handle that the `collect` stage interprets. -/
structure S3Output where
  body : Nat
deriving DecidableEq, Repr

/-- An `ImageReader` with a guessed format, abstracted as an opaque handle
that the `decode` stage interprets. -/
structure ImgReader where
  handle : Nat
deriving DecidableEq, Repr

/-- A decoded `DynamicImage`: dimensions plus pixel content (the hasher
consumes the pixels; `dimensions()` reads width and height). -/
structure DynImage where
  width : Nat
  height : Nat
  pixels : List Nat
deriving DecidableEq, Repr

/-- The external collaborators of the handler, as arbitrary pure stage
functions (each crate call is deterministic for fixed inputs):
`s3Get` is `s3_client.get_object().bucket(..).key(..).send()`,
`collect` is `response.body.collect()`,
`guess` is `ImageReader::new(Cursor::new(bytes)).with_guessed_format()`,
`decode` is `reader.decode()`, and
`hashImage` is `hasher.hash_image(&img)` for the configured algorithm,
returning the hash's bit vector. Error payloads are the `to_string()`
renderings the handler captures. -/
structure Stages where
  s3Get : String → String → Except String S3Output
  collect : S3Output → Except String (List Nat)
  guess : List Nat → Except String ImgReader
  decode : ImgReader → Except String DynImage
  hashImage : HashAlg → DynImage → List Bool

/-- The clock model for one invocation: a start instant and the wall-clock
duration consumed by each stage of the handler, in source order, all in
integer nanoseconds (the resolution of `Instant`/`Duration`). -/
structure Timing where
  t0 : Nat
  dS3 : Nat
  dCollect : Nat
  dGuess : Nat
  dDecode : Nat
  dHasher : Nat
  dHash : Nat

/-- Pack a bit vector into bytes, most-significant bit first, zero-padding the
final partial byte. Modelled from the spec: the byte packing happens inside
the `image_hasher` crate (absent from `src/`); the spec pins a canonical,
consistent bit order. -/
def bitsToByte (bits : List Bool) : Nat :=
  List.foldl (fun acc b => acc * 2 + cond b 1 0) 0 bits

/-- Chunk a bit vector into bytes of 8 bits each, MSB first, zero-padding the
trailing partial byte. -/
def packBits : List Bool → List Nat
  | [] => []
  | b1 :: b2 :: b3 :: b4 :: b5 :: b6 :: b7 :: b8 :: rest =>
      bitsToByte [b1, b2, b3, b4, b5, b6, b7, b8] :: packBits rest
  | bs => [bitsToByte (bs ++ List.replicate (8 - bs.length) false)]

/-- The 8 bits of a byte, most significant first. -/
def byteToBits (n : Nat) : List Bool :=
  [decide (n / 128 % 2 = 1), decide (n / 64 % 2 = 1), decide (n / 32 % 2 = 1),
   decide (n / 16 % 2 = 1), decide (n / 8 % 2 = 1), decide (n / 4 % 2 = 1),
   decide (n / 2 % 2 = 1), decide (n % 2 = 1)]

/-- Recover a bit vector of known length from its packed bytes. -/
def unpackBits (nbits : Nat) (bytes : List Nat) : List Bool :=
  (List.flatten (bytes.map byteToBits)).take nbits

/-- The RFC 4648 base64 alphabet, as a function from a sextet to its char. -/
def b64Char (n : Nat) : Char :=
  if n < 26 then Char.ofNat (65 + n)
  else if n < 52 then Char.ofNat (97 + (n - 26))
  else if n < 62 then Char.ofNat (48 + (n - 52))
  else if n = 62 then '+'
  else '/'

/-- The inverse of the base64 alphabet: a char back to its sextet. -/
def b64Index (c : Char) : Option Nat :=
  if 65 ≤ c.toNat ∧ c.toNat ≤ 90 then some (c.toNat - 65)
  else if 97 ≤ c.toNat ∧ c.toNat ≤ 122 then some (c.toNat - 97 + 26)
  else if 48 ≤ c.toNat ∧ c.toNat ≤ 57 then some (c.toNat - 48 + 52)
  else if c.toNat = 43 then some 62
  else if c.toNat = 47 then some 63
  else none

/-- Standard base64 encoding of a byte list (RFC 4648, with `=` padding, no
line wrapping). Modelled from the spec: `Hash::to_base64` lives in the
`image_hasher` crate, absent from `src/`; the spec pins standard base64. -/
def b64EncodeGroups : List Nat → List Char
  | [] => []
  | [b1] => [b64Char (b1 / 4), b64Char (b1 % 4 * 16), '=', '=']
  | [b1, b2] => [b64Char (b1 / 4), b64Char (b1 % 4 * 16 + b2 / 16),
                 b64Char (b2 % 16 * 4), '=']
  | b1 :: b2 :: b3 :: rest =>
      b64Char (b1 / 4) :: b64Char (b1 % 4 * 16 + b2 / 16) ::
      b64Char (b2 % 16 * 4 + b3 / 64) :: b64Char (b3 % 64) ::
      b64EncodeGroups rest

/-- Base64 decoding back to bytes; `none` on malformed input. -/
def b64DecodeGroups : List Char → Option (List Nat)
  | [] => some []
  | c1 :: c2 :: c3 :: c4 :: rest =>
      match b64Index c1, b64Index c2 with
      | some s1, some s2 =>
          if c3 = '=' then
            if c4 = '=' ∧ rest = [] then some [s1 * 4 + s2 / 16] else none
          else
            match b64Index c3 with
            | some s3 =>
                if c4 = '=' then
                  if rest = [] then some [s1 * 4 + s2 / 16, s2 % 16 * 16 + s3 / 4]
                  else none
                else
                  match b64Index c4 with
                  | some s4 =>
                      (b64DecodeGroups rest).map
                        (fun bs => (s1 * 4 + s2 / 16) :: (s2 % 16 * 16 + s3 / 4) ::
                                   (s3 % 4 * 64 + s4) :: bs)
                  | none => none
            | none => none
      | _, _ => none
  | _ => none

/-- The encoder: pack the hash's bit vector and render it as base64
(`hash.to_base64()` in the source). -/
def toBase64 (bits : List Bool) : String :=
  String.mk (b64EncodeGroups (packBits bits))

/-- Decode a base64 hash string back to a bit vector of the given length. -/
def fromBase64 (nbits : Nat) (s : String) : Option (List Bool) :=
  (b64DecodeGroups s.data).map (unpackBits nbits)

/-- The handler `put_object` of `src/main.rs` (lines 64-107), translated
statement by statement. Each fallible crate call is a `Stages` field; `?` and
`map_err` become `match`es producing the same `TypedError` variants. The
clock advances by each stage's duration in source order; `Instant::now` is
read just before `hash_image` and `elapsed` just after it. -/
def put_object (s : Stages) (tm : Timing) (bucket_name : String)
    (ev : Request) : Except TypedError Response :=
  let key := ev.path
  match s.s3Get bucket_name key with
  | .error _ => .error .S3Get
  | .ok output =>
    let t1 := tm.t0 + tm.dS3
    match s.collect output with
    | .error e => .error (.S3Download e)
    | .ok bytes =>
      let t2 := t1 + tm.dCollect
      match s.guess bytes with
      | .error e => .error (.InvalidFormat e)
      | .ok reader =>
        let t3 := t2 + tm.dGuess
        match s.decode reader with
        | .error e => .error (.InvalidFormat e)
        | .ok img =>
          let t4 := t3 + tm.dDecode
          let width := img.width
          let height := img.height
          let algo := ev.algo.getD HashAlg.Gradient
          let t5 := t4 + tm.dHasher
          let start := t5
          let hash := s.hashImage algo img
          let t6 := t5 + tm.dHash
          let elapsed := t6 - start
          .ok { hash_base64 := toBase64 hash
                algo := algo
                image_size := (width, height)
                time_elapsed := elapsed }

/-- The error taxonomy of the spec, transcribed from its words: the first
stage to fail determines the propagated error, tagged with the stage
(`S3Get` for the get, `S3Download` with the collect reason, `InvalidFormat`
with the format-guess or decode reason); `none` when every stage succeeds. -/
def firstFailure (s : Stages) (bucket_name : String) (ev : Request) :
    Option TypedError :=
  match s.s3Get bucket_name ev.path with
  | .error _ => some .S3Get
  | .ok output =>
    match s.collect output with
    | .error e => some (.S3Download e)
    | .ok bytes =>
      match s.guess bytes with
      | .error e => some (.InvalidFormat e)
      | .ok reader =>
        match s.decode reader with
        | .error e => some (.InvalidFormat e)
        | .ok _ => none

/-- ASCII lowering of one character (uppercase letters shifted down). -/
def lowerChar (c : Char) : Char :=
  if 65 ≤ c.toNat ∧ c.toNat ≤ 90 then Char.ofNat (c.toNat + 32) else c

/-- Case-fold a string to its list of lowered characters. -/
def lowerStr (s : String) : List Char :=
  s.data.map lowerChar

/-- The printable name of each `HashAlg` variant. -/
def HashAlg.name : HashAlg → String
  | .Mean => "Mean"
  | .Gradient => "Gradient"
  | .VertGradient => "VertGradient"
  | .DoubleGradient => "DoubleGradient"
  | .BlockMean => "BlockMean"
  | .Median => "Median"
  | .Blockhash => "Blockhash"
  | .DCT => "DCT"

/-- All `HashAlg` variants, in declaration order. -/
def allAlgs : List HashAlg :=
  [.Mean, .Gradient, .VertGradient, .DoubleGradient, .BlockMean, .Median,
   .Blockhash, .DCT]

/-- The envelope-parsing failure for an unknown algorithm selector. -/
inductive ParseError
  | UnsupportedAlgorithm (selector : String)
deriving DecidableEq, Repr

/-- Modelled from the spec: the deserialization of the optional `algo` field
(a serde derive over the external `HashAlg` type, absent from `src/`). The
spec's request envelope matches the selector against the `HashAlg` variant
names case-insensitively; an unmatched selector is an `UnsupportedAlgorithm`
error surfacing the offending string. -/
def parseAlgoSelector (sel : String) : Except ParseError HashAlg :=
  match allAlgs.find? (fun a => lowerStr a.name = lowerStr sel) with
  | some a => .ok a
  | none => .error (.UnsupportedAlgorithm sel)

/-- A request as it arrives on the wire: the selector still a raw string. -/
structure RawRequest where
  path : String
  algo : Option String
deriving DecidableEq, Repr

/-- Modelled from the spec: envelope parsing of the whole request. An absent
selector stays absent (the Gradient default is applied inside the handler);
a present selector must name a variant. -/
def parseRequest (raw : RawRequest) : Except ParseError Request :=
  match raw.algo with
  | none => .ok { path := raw.path, algo := none }
  | some sel =>
    match parseAlgoSelector sel with
    | .ok a => .ok { path := raw.path, algo := some a }
    | .error e => .error e

/-- The full inbound surface: deserialize the raw request, then run the
handler. A parse failure is surfaced on the left and the pipeline never
runs; a handler failure is surfaced on the right. -/
def handleRaw (s : Stages) (tm : Timing) (bucket_name : String)
    (raw : RawRequest) : Except (ParseError ⊕ TypedError) Response :=
  match parseRequest raw with
  | .error e => .error (.inl e)
  | .ok req =>
    match put_object s tm bucket_name req with
    | .error e => .error (.inr e)
    | .ok r => .ok r

/-- The startup of `main` (lines 119-120): read `BUCKET_NAME` from the
environment; when it is absent, `expect` panics with the source's message,
modelled as an `Except.error` that aborts before any request is served. -/
def mainStartup (envVars : String → Option String) : Except String String :=
  match envVars "BUCKET_NAME" with
  | none => .error
      "A BUCKET_NAME must be set in this app's Lambda environment variables."
  | some bucket => .ok bucket

/-- The served closure of `main` (lines 130-132): every invocation calls
`put_object` with the single bucket name captured at startup; if startup
failed, no request is ever served. -/
def service (envVars : String → Option String) (s : Stages) (tm : Timing)
    (ev : Request) : Except String (Except TypedError Response) :=
  match mainStartup envVars with
  | .error msg => .error msg
  | .ok bucket => .ok (put_object s tm bucket ev)

/-- Equality of `Except` values is decidable componentwise. -/
instance {e a : Type} [DecidableEq e] [DecidableEq a] : DecidableEq (Except e a) :=
  fun x y =>
    match x, y with
    | .error u, .error v => decidable_of_iff (u = v) (by simp)
    | .error _, .ok _ => isFalse (fun h => Except.noConfusion h)
    | .ok _, .error _ => isFalse (fun h => Except.noConfusion h)
    | .ok u, .ok v => decidable_of_iff (u = v) (by simp)

/-- A sample decoded image. -/
def demoImage : DynImage := { width := 2, height := 2, pixels := [0, 255, 255, 0] }

/-- A sample set of stage functions on which every stage succeeds. -/
def demoStages : Stages where
  s3Get := fun _ _ => .ok { body := 0 }
  collect := fun _ => .ok [137, 80, 78, 71]
  guess := fun _ => .ok { handle := 0 }
  decode := fun _ => .ok demoImage
  hashImage := fun a img =>
    [decide (a = HashAlg.Gradient), decide (img.width = 2), true, false,
     true, false, false, true]

/-- A sample clock. -/
def demoTiming : Timing :=
  { t0 := 0, dS3 := 1, dCollect := 1, dGuess := 1, dDecode := 1, dHasher := 1,
    dHash := 5 }

/-- A different sample clock with different stage durations. -/
def demoTiming2 : Timing :=
  { t0 := 100, dS3 := 2, dCollect := 3, dGuess := 4, dDecode := 7, dHasher := 6,
    dHash := 5 }

/-- Stage functions whose S3 get fails with the given SDK error. -/
def failS3 (msg : String) : Stages :=
  { demoStages with s3Get := fun _ _ => .error msg }

/-- Stage functions whose body download fails with the given error. -/
def failCollect (msg : String) : Stages :=
  { demoStages with collect := fun _ => .error msg }

/-- Stage functions whose image decode fails with the given error. -/
def failDecode (msg : String) : Stages :=
  { demoStages with decode := fun _ => .error msg }

set_option maxRecDepth 8192

/-- Success characterization of the handler: it returns `.ok r` exactly when
every stage succeeds, and then `r` is fully determined by the stage outputs:
the base64 of the selected transform's bit vector, the selected algorithm,
the decoded dimensions, and the duration of the hashing stage alone. -/
theorem put_object_ok_iff (s : Stages) (tm : Timing) (bucket : String)
    (ev : Request) (r : Response) :
    put_object s tm bucket ev = .ok r ↔
      ∃ out bytes reader img,
        s.s3Get bucket ev.path = .ok out ∧
        s.collect out = .ok bytes ∧
        s.guess bytes = .ok reader ∧
        s.decode reader = .ok img ∧
        r = { hash_base64 := toBase64 (s.hashImage (ev.algo.getD .Gradient) img)
              algo := ev.algo.getD .Gradient
              image_size := (img.width, img.height)
              time_elapsed := tm.dHash } := by
  constructor
  · intro h
    simp only [put_object] at h
    split at h
    · exact absurd h (by simp)
    next out heq1 =>
      split at h
      · exact absurd h (by simp)
      next bytes heq2 =>
        split at h
        · exact absurd h (by simp)
        next reader heq3 =>
          split at h
          · exact absurd h (by simp)
          next img heq4 =>
            refine ⟨out, bytes, reader, img, heq1, heq2, heq3, heq4, ?_⟩
            cases h
            simp [Response.mk.injEq]
  · rintro ⟨out, bytes, reader, img, h1, h2, h3, h4, rfl⟩
    simp only [put_object, h1, h2, h3, h4]
    simp [Response.mk.injEq]

/-- The handler result is an error exactly when some stage fails, and then the
error is the tag of the first failing stage. -/
theorem put_object_error_iff (s : Stages) (tm : Timing) (bucket : String)
    (ev : Request) (e : TypedError) :
    put_object s tm bucket ev = .error e ↔
      firstFailure s bucket ev = some e := by
  simp only [put_object, firstFailure]
  split
  · simp
  · split
    · simp
    · split
      · simp
      · split
        · simp
        · simp

/-- Decoding inverts the alphabet on every sextet. -/
theorem b64Index_b64Char (n : Nat) (h : n < 64) : b64Index (b64Char n) = some n := by
  revert n h; decide

/-- No alphabet character is the padding character. -/
theorem b64Char_ne_pad (n : Nat) (h : n < 64) : b64Char n ≠ '=' := by
  revert n h; decide

/-- `byteToBits` inverts `bitsToByte` on every 8-bit list. -/
theorem byteToBits_bitsToByte (a b c d e f g h : Bool) :
    byteToBits (bitsToByte [a, b, c, d, e, f, g, h]) = [a, b, c, d, e, f, g, h] := by
  revert a b c d e f g h; decide

/-- An 8-bit list packs to a byte below 256. -/
theorem bitsToByte_lt (a b c d e f g h : Bool) :
    bitsToByte [a, b, c, d, e, f, g, h] < 256 := by
  revert a b c d e f g h; decide

/-- Base64 decoding inverts encoding on byte lists. -/
theorem b64Decode_b64Encode : ∀ bs : List Nat, (∀ b ∈ bs, b < 256) →
    b64DecodeGroups (b64EncodeGroups bs) = some bs
  | [], _ => rfl
  | [b1], h => by
      have hb1 : b1 < 256 := h b1 (by simp)
      simp only [b64EncodeGroups, b64DecodeGroups,
        b64Index_b64Char (b1 / 4) (by omega),
        b64Index_b64Char (b1 % 4 * 16) (by omega)]
      simp
      omega
  | [b1, b2], h => by
      have hb1 : b1 < 256 := h b1 (by simp)
      have hb2 : b2 < 256 := h b2 (by simp)
      simp only [b64EncodeGroups, b64DecodeGroups,
        b64Index_b64Char (b1 / 4) (by omega),
        b64Index_b64Char (b1 % 4 * 16 + b2 / 16) (by omega),
        b64Index_b64Char (b2 % 16 * 4) (by omega),
        if_neg (b64Char_ne_pad (b2 % 16 * 4) (by omega))]
      simp
      omega
  | [b1, b2, b3], h => by
      have hb1 : b1 < 256 := h b1 (by simp)
      have hb2 : b2 < 256 := h b2 (by simp)
      have hb3 : b3 < 256 := h b3 (by simp)
      simp only [b64EncodeGroups, b64DecodeGroups,
        b64Index_b64Char (b1 / 4) (by omega),
        b64Index_b64Char (b1 % 4 * 16 + b2 / 16) (by omega),
        b64Index_b64Char (b2 % 16 * 4 + b3 / 64) (by omega),
        b64Index_b64Char (b3 % 64) (by omega),
        if_neg (b64Char_ne_pad (b2 % 16 * 4 + b3 / 64) (by omega)),
        if_neg (b64Char_ne_pad (b3 % 64) (by omega))]
      simp
      omega
  | b1 :: b2 :: b3 :: b4 :: rest, h => by
      have hb1 : b1 < 256 := h b1 (by simp)
      have hb2 : b2 < 256 := h b2 (by simp)
      have hb3 : b3 < 256 := h b3 (by simp)
      have ih := b64Decode_b64Encode (b4 :: rest) (fun x hx => h x (by simp [hx]))
      simp only [b64EncodeGroups, b64DecodeGroups,
        b64Index_b64Char (b1 / 4) (by omega),
        b64Index_b64Char (b1 % 4 * 16 + b2 / 16) (by omega),
        b64Index_b64Char (b2 % 16 * 4 + b3 / 64) (by omega),
        b64Index_b64Char (b3 % 64) (by omega),
        if_neg (b64Char_ne_pad (b2 % 16 * 4 + b3 / 64) (by omega)),
        if_neg (b64Char_ne_pad (b3 % 64) (by omega)), ih]
      simp
      omega

/-- Every packed byte is in range. -/
theorem packBits_lt : ∀ bv : List Bool, ∀ b ∈ packBits bv, b < 256
  | [], _, hb => by simp [packBits] at hb
  | b1 :: b2 :: b3 :: b4 :: b5 :: b6 :: b7 :: b8 :: rest, b, hb => by
      simp only [packBits, List.mem_cons] at hb
      rcases hb with rfl | hb
      · exact bitsToByte_lt b1 b2 b3 b4 b5 b6 b7 b8
      · exact packBits_lt rest b hb
  | [b1], b, hb => by
      simp only [packBits, List.mem_cons] at hb
      rcases hb with rfl | hb
      · simpa using bitsToByte_lt b1 false false false false false false false
      · simp at hb
  | [b1, b2], b, hb => by
      simp only [packBits, List.mem_cons] at hb
      rcases hb with rfl | hb
      · simpa using bitsToByte_lt b1 b2 false false false false false false
      · simp at hb
  | [b1, b2, b3], b, hb => by
      simp only [packBits, List.mem_cons] at hb
      rcases hb with rfl | hb
      · simpa using bitsToByte_lt b1 b2 b3 false false false false false
      · simp at hb
  | [b1, b2, b3, b4], b, hb => by
      simp only [packBits, List.mem_cons] at hb
      rcases hb with rfl | hb
      · simpa using bitsToByte_lt b1 b2 b3 b4 false false false false
      · simp at hb
  | [b1, b2, b3, b4, b5], b, hb => by
      simp only [packBits, List.mem_cons] at hb
      rcases hb with rfl | hb
      · simpa using bitsToByte_lt b1 b2 b3 b4 b5 false false false
      · simp at hb
  | [b1, b2, b3, b4, b5, b6], b, hb => by
      simp only [packBits, List.mem_cons] at hb
      rcases hb with rfl | hb
      · simpa using bitsToByte_lt b1 b2 b3 b4 b5 b6 false false
      · simp at hb
  | [b1, b2, b3, b4, b5, b6, b7], b, hb => by
      simp only [packBits, List.mem_cons] at hb
      rcases hb with rfl | hb
      · simpa using bitsToByte_lt b1 b2 b3 b4 b5 b6 b7 false
      · simp at hb

/-- Unpacking the packed bytes gives back the bits plus zero padding to the
next byte boundary. -/
theorem flatten_packBits : ∀ bv : List Bool,
    List.flatten ((packBits bv).map byteToBits) =
      bv ++ List.replicate ((8 - bv.length % 8) % 8) false
  | [] => by simp [packBits]
  | b1 :: b2 :: b3 :: b4 :: b5 :: b6 :: b7 :: b8 :: rest => by
      have ih := flatten_packBits rest
      simp only [packBits, List.map_cons, List.flatten_cons,
        byteToBits_bitsToByte, ih]
      simp only [List.length_cons]
      have hmod : (rest.length + 1 + 1 + 1 + 1 + 1 + 1 + 1 + 1) % 8 =
          rest.length % 8 := by
        omega
      rw [hmod]
      simp
  | [b1] => by
      simpa using byteToBits_bitsToByte b1 false false false false false false false
  | [b1, b2] => by
      simpa using byteToBits_bitsToByte b1 b2 false false false false false false
  | [b1, b2, b3] => by
      simpa using byteToBits_bitsToByte b1 b2 b3 false false false false false
  | [b1, b2, b3, b4] => by
      simpa using byteToBits_bitsToByte b1 b2 b3 b4 false false false false
  | [b1, b2, b3, b4, b5] => by
      simpa using byteToBits_bitsToByte b1 b2 b3 b4 b5 false false false
  | [b1, b2, b3, b4, b5, b6] => by
      simpa using byteToBits_bitsToByte b1 b2 b3 b4 b5 b6 false false
  | [b1, b2, b3, b4, b5, b6, b7] => by
      simpa using byteToBits_bitsToByte b1 b2 b3 b4 b5 b6 b7 false

/-- Unpacking inverts packing. -/
theorem unpackBits_packBits (bv : List Bool) :
    unpackBits bv.length (packBits bv) = bv := by
  rw [unpackBits, flatten_packBits]
  rw [List.take_append_of_le_length (le_refl bv.length)]
  exact List.take_length bv

/-- C1: for every byte buffer that decodes to a valid image and every fixed
algorithm selector, two runs of the hashing pipeline on the same bytes and
selector — here, two invocations with the same stage functions but arbitrary
different clock behavior — produce bit-for-bit identical `hash_base64`
strings: the hash is a deterministic function of the input bytes and the
algorithm. -/
theorem c1_hash_deterministic (s : Stages) (tm1 tm2 : Timing) (bucket : String)
    (ev : Request) (r1 r2 : Response)
    (h1 : put_object s tm1 bucket ev = .ok r1)
    (h2 : put_object s tm2 bucket ev = .ok r2) :
    r1.hash_base64 = r2.hash_base64 := by
  rcases (put_object_ok_iff s tm1 bucket ev r1).mp h1 with
    ⟨out, bytes, reader, img, a1, a2, a3, a4, hr1⟩
  rcases (put_object_ok_iff s tm2 bucket ev r2).mp h2 with
    ⟨out2, bytes2, reader2, img2, b1, b2, b3, b4, hr2⟩
  rw [a1] at b1; cases b1
  rw [a2] at b2; cases b2
  rw [a3] at b3; cases b3
  rw [a4] at b4; cases b4
  rw [hr1, hr2]

/-- C1 witness: two concrete runs under different clocks yield the same hash. -/
theorem c1_hash_deterministic_witness :
    put_object demoStages demoTiming "bucket" { path := "k", algo := none } =
      .ok { hash_base64 := toBase64 (demoStages.hashImage HashAlg.Gradient demoImage)
            algo := HashAlg.Gradient
            image_size := (2, 2)
            time_elapsed := 5 } ∧
    put_object demoStages demoTiming2 "bucket" { path := "k", algo := none } =
      .ok { hash_base64 := toBase64 (demoStages.hashImage HashAlg.Gradient demoImage)
            algo := HashAlg.Gradient
            image_size := (2, 2)
            time_elapsed := 5 } ∧
    Response.hash_base64
        { hash_base64 := toBase64 (demoStages.hashImage HashAlg.Gradient demoImage)
          algo := HashAlg.Gradient
          image_size := (2, 2)
          time_elapsed := 5 } =
      Response.hash_base64
        { hash_base64 := toBase64 (demoStages.hashImage HashAlg.Gradient demoImage)
          algo := HashAlg.Gradient
          image_size := (2, 2)
          time_elapsed := 5 } := by
  refine ⟨by decide, by decide, ?_⟩
  exact c1_hash_deterministic demoStages demoTiming demoTiming2 "bucket"
    { path := "k", algo := none } _ _ (by decide) (by decide)

/-- C2: an absent algorithm selector defaults to `Gradient`, and on every
successful request the `algo` field of the response is the algorithm variant
actually used for hashing (the requested one, or `Gradient` when unset). -/
theorem c2_default_gradient_and_reported_algo (s : Stages) (tm : Timing)
    (bucket : String) (ev : Request) (r : Response)
    (h : put_object s tm bucket ev = .ok r) :
    r.algo = ev.algo.getD HashAlg.Gradient ∧
    (ev.algo = none → r.algo = HashAlg.Gradient) ∧
    ∃ out bytes reader img,
      s.s3Get bucket ev.path = .ok out ∧
      s.collect out = .ok bytes ∧
      s.guess bytes = .ok reader ∧
      s.decode reader = .ok img ∧
      r.hash_base64 = toBase64 (s.hashImage r.algo img) := by
  rcases (put_object_ok_iff s tm bucket ev r).mp h with
    ⟨out, bytes, reader, img, h1, h2, h3, h4, rfl⟩
  exact ⟨rfl, fun hnone => by simp [hnone], out, bytes, reader, img,
    h1, h2, h3, h4, rfl⟩

/-- C2 witness: a concrete request with no selector hashes with `Gradient`
and reports it. -/
theorem c2_default_gradient_and_reported_algo_witness :
    put_object demoStages demoTiming "bucket" { path := "k", algo := none } =
      .ok { hash_base64 := toBase64 (demoStages.hashImage HashAlg.Gradient demoImage)
            algo := HashAlg.Gradient
            image_size := (2, 2)
            time_elapsed := 5 } ∧
    Response.algo
        { hash_base64 := toBase64 (demoStages.hashImage HashAlg.Gradient demoImage)
          algo := HashAlg.Gradient
          image_size := (2, 2)
          time_elapsed := 5 } = HashAlg.Gradient := by
  refine ⟨by decide, ?_⟩
  exact (c2_default_gradient_and_reported_algo demoStages demoTiming "bucket"
    { path := "k", algo := none } _ (by decide)).2.1 rfl

/-- C3: the `time_elapsed` of every successful response equals the duration of
the hash-transform stage alone — the timer starts after decoding and hasher
construction and stops right after `hash_image`, for every choice of the
download, decode, construction, and encoding durations. -/
theorem c3_elapsed_measures_hash_stage_only (s : Stages) (tm : Timing)
    (bucket : String) (ev : Request) (r : Response)
    (h : put_object s tm bucket ev = .ok r) :
    r.time_elapsed = tm.dHash := by
  rcases (put_object_ok_iff s tm bucket ev r).mp h with
    ⟨out, bytes, reader, img, h1, h2, h3, h4, rfl⟩
  rfl

/-- C3 witness: a concrete run whose stages take 1ns each except a 5ns hash
reports exactly 5ns. -/
theorem c3_elapsed_measures_hash_stage_only_witness :
    put_object demoStages demoTiming "bucket" { path := "k", algo := none } =
      .ok { hash_base64 := toBase64 (demoStages.hashImage HashAlg.Gradient demoImage)
            algo := HashAlg.Gradient
            image_size := (2, 2)
            time_elapsed := 5 } ∧
    Response.time_elapsed
        { hash_base64 := toBase64 (demoStages.hashImage HashAlg.Gradient demoImage)
          algo := HashAlg.Gradient
          image_size := (2, 2)
          time_elapsed := 5 } = demoTiming.dHash := by
  refine ⟨by decide, ?_⟩
  exact c3_elapsed_measures_hash_stage_only demoStages demoTiming "bucket"
    { path := "k", algo := none } _ (by decide)

/-- C4: every request either produces a complete `Response` — all stages
succeeded and every field is populated from them — or propagates the first
failure as the matching `TypedError`; no partial result is ever returned. -/
theorem c4_complete_response_or_first_error (s : Stages) (tm : Timing)
    (bucket : String) (ev : Request) :
    (∃ e, firstFailure s bucket ev = some e ∧
      put_object s tm bucket ev = .error e) ∨
    (firstFailure s bucket ev = none ∧
      ∃ out bytes reader img,
        s.s3Get bucket ev.path = .ok out ∧
        s.collect out = .ok bytes ∧
        s.guess bytes = .ok reader ∧
        s.decode reader = .ok img ∧
        put_object s tm bucket ev =
          .ok { hash_base64 := toBase64 (s.hashImage (ev.algo.getD .Gradient) img)
                algo := ev.algo.getD .Gradient
                image_size := (img.width, img.height)
                time_elapsed := tm.dHash }) := by
  rcases he : put_object s tm bucket ev with e | r
  · exact Or.inl ⟨e, (put_object_error_iff s tm bucket ev e).mp he, rfl⟩
  · right
    rcases (put_object_ok_iff s tm bucket ev r).mp he with
      ⟨out, bytes, reader, img, h1, h2, h3, h4, hr⟩
    constructor
    · simp only [firstFailure, h1, h2, h3, h4]
    · exact ⟨out, bytes, reader, img, h1, h2, h3, h4, congrArg Except.ok hr⟩

/-- C5: a selector string matching no `HashAlg` variant name (even up to
case) makes the system yield `UnsupportedAlgorithm` carrying the offending
string, for every stage environment — the pipeline never silently falls back
to another algorithm. -/
theorem c5_unsupported_selector_errors (s : Stages) (tm : Timing)
    (bucket : String) (raw : RawRequest) (sel : String)
    (hsel : raw.algo = some sel)
    (hno : ∀ a ∈ allAlgs, lowerStr (HashAlg.name a) ≠ lowerStr sel) :
    handleRaw s tm bucket raw = .error (.inl (.UnsupportedAlgorithm sel)) := by
  have hfind : allAlgs.find? (fun a => lowerStr a.name = lowerStr sel) = none := by
    rw [List.find?_eq_none]
    intro a ha
    simpa using hno a ha
  simp [handleRaw, parseRequest, hsel, parseAlgoSelector, hfind]

/-- C5 witness: the spec's own scenario, selector `"not-a-real-algo"`. -/
theorem c5_unsupported_selector_errors_witness :
    (∀ a ∈ allAlgs, lowerStr (HashAlg.name a) ≠ lowerStr "not-a-real-algo") ∧
    handleRaw demoStages demoTiming "bucket"
        { path := "k", algo := some "not-a-real-algo" } =
      .error (.inl (.UnsupportedAlgorithm "not-a-real-algo")) := by
  refine ⟨by decide, ?_⟩
  exact c5_unsupported_selector_errors demoStages demoTiming "bucket" _ _ rfl
    (by decide)

/-- C6: the selector is matched against the variant names case-insensitively:
two selector strings with the same case-folding select the same algorithm. -/
theorem c6_selector_case_insensitive (sel1 sel2 : String)
    (h : lowerStr sel1 = lowerStr sel2) (a : HashAlg) :
    parseAlgoSelector sel1 = .ok a ↔ parseAlgoSelector sel2 = .ok a := by
  simp only [parseAlgoSelector, h]
  cases hfind : allAlgs.find? (fun x => lowerStr x.name = lowerStr sel2) <;>
    simp [hfind]

/-- C6 witness: `"GrAdIeNt"` selects the same algorithm as `"gradient"`. -/
theorem c6_selector_case_insensitive_witness :
    lowerStr "GrAdIeNt" = lowerStr "gradient" ∧
    parseAlgoSelector "GrAdIeNt" = .ok HashAlg.Gradient := by
  refine ⟨by decide, ?_⟩
  exact (c6_selector_case_insensitive "gradient" "GrAdIeNt" (by decide)
    HashAlg.Gradient).mp (by decide)

/-- C7: whenever the downloaded bytes reach the decoding step and the format
guess or the decode rejects them (truncated, corrupt, unguessable, or
unsupported data), the handler returns `InvalidFormat` carrying the decoder's
reason — it never produces a hash over garbage pixels. -/
theorem c7_decode_failure_yields_invalid_format (s : Stages) (tm : Timing)
    (bucket : String) (ev : Request) (out : S3Output) (bytes : List Nat)
    (e : String)
    (h1 : s.s3Get bucket ev.path = .ok out)
    (h2 : s.collect out = .ok bytes)
    (h3 : s.guess bytes = .error e ∨
          ∃ reader, s.guess bytes = .ok reader ∧ s.decode reader = .error e) :
    put_object s tm bucket ev = .error (.InvalidFormat e) := by
  rcases h3 with h3 | ⟨reader, h3, h4⟩
  · simp [put_object, h1, h2, h3]
  · simp [put_object, h1, h2, h3, h4]

/-- C7 witness: a concrete corrupt buffer whose decode fails. -/
theorem c7_decode_failure_yields_invalid_format_witness :
    (failDecode "corrupt data").s3Get "bucket" "k" = .ok { body := 0 } ∧
    (failDecode "corrupt data").collect { body := 0 } = .ok [137, 80, 78, 71] ∧
    put_object (failDecode "corrupt data") demoTiming "bucket"
        { path := "k", algo := none } =
      .error (.InvalidFormat "corrupt data") := by
  refine ⟨by decide, by decide, ?_⟩
  exact c7_decode_failure_yields_invalid_format (failDecode "corrupt data")
    demoTiming "bucket" { path := "k", algo := none } { body := 0 }
    [137, 80, 78, 71] "corrupt data" (by decide) (by decide)
    (Or.inr ⟨{ handle := 0 }, by decide, by decide⟩)

/-- C8: the encoder's pack-then-base64 step is invertible: base64-decoding the
encoded hash string and unpacking the bytes reconstructs exactly the original
bit vector, for every bit vector a transform can produce. (`put_object`
renders its hash as `toBase64` of the transform's bit vector.) -/
theorem c8_encode_roundtrip (bv : List Bool) :
    fromBase64 bv.length (toBase64 bv) = some bv := by
  rw [fromBase64, toBase64]
  have hdata : (String.mk (b64EncodeGroups (packBits bv))).data =
      b64EncodeGroups (packBits bv) := rfl
  rw [hdata, b64Decode_b64Encode (packBits bv) (packBits_lt bv)]
  simp [unpackBits_packBits]

/-- C9 counterexample: the claim says each `TypedError` variant carries a
reason for the failure, but `S3Get` does not: two S3 gets failing with
different SDK reasons produce the very same error value (the reason is only
logged, then discarded), whose rendered message is a constant. -/
theorem c9_s3get_drops_reason_cex :
    put_object (failS3 "connection timed out") demoTiming "bucket"
        { path := "k", algo := none } =
      put_object (failS3 "access denied") demoTiming "bucket"
        { path := "k", algo := none } ∧
    put_object (failS3 "connection timed out") demoTiming "bucket"
        { path := "k", algo := none } = .error TypedError.S3Get ∧
    (failS3 "connection timed out").s3Get "bucket" "k" ≠
      (failS3 "access denied").s3Get "bucket" "k" ∧
    TypedError.message TypedError.S3Get = "Failed to retrieve from S3" := by
  exact ⟨by decide, by decide, by decide, rfl⟩

/-- C9 (amended): every error the handler returns identifies the failing
stage by its variant, and the `S3Download` and `InvalidFormat` variants carry
the stage's reason verbatim; `S3Get` only attests that the S3 get failed,
without its reason. -/
theorem c9_errors_identify_stage (s : Stages) (tm : Timing) (bucket : String)
    (ev : Request) (e : TypedError)
    (h : put_object s tm bucket ev = .error e) :
    (e = .S3Get → ∃ msg, s.s3Get bucket ev.path = .error msg) ∧
    (∀ reason, e = .S3Download reason →
      ∃ out, s.s3Get bucket ev.path = .ok out ∧ s.collect out = .error reason) ∧
    (∀ reason, e = .InvalidFormat reason →
      ∃ out bytes, s.s3Get bucket ev.path = .ok out ∧
        s.collect out = .ok bytes ∧
        (s.guess bytes = .error reason ∨
         ∃ reader, s.guess bytes = .ok reader ∧
           s.decode reader = .error reason)) := by
  have hff := (put_object_error_iff s tm bucket ev e).mp h
  simp only [firstFailure] at hff
  split at hff
  next msg heq =>
    cases hff
    exact ⟨fun _ => ⟨msg, heq⟩, by rintro r ⟨⟩, by rintro r ⟨⟩⟩
  next out heq1 =>
    split at hff
    next msg heq2 =>
      cases hff
      exact ⟨by rintro ⟨⟩, fun r hr => by cases hr; exact ⟨out, heq1, heq2⟩,
        by rintro r ⟨⟩⟩
    next bytes heq2 =>
      split at hff
      next msg heq3 =>
        cases hff
        exact ⟨by rintro ⟨⟩, by rintro r ⟨⟩,
          fun r hr => by cases hr; exact ⟨out, bytes, heq1, heq2, Or.inl heq3⟩⟩
      next reader heq3 =>
        split at hff
        next msg heq4 =>
          cases hff
          exact ⟨by rintro ⟨⟩, by rintro r ⟨⟩,
            fun r hr => by
              cases hr
              exact ⟨out, bytes, heq1, heq2, Or.inr ⟨reader, heq3, heq4⟩⟩⟩
        next img heq4 => cases hff

/-- C9 witness: a failed body download surfaces its reason in `S3Download`. -/
theorem c9_errors_identify_stage_witness :
    put_object (failCollect "stream interrupted") demoTiming "bucket"
        { path := "k", algo := none } =
      .error (TypedError.S3Download "stream interrupted") ∧
    (∃ out, (failCollect "stream interrupted").s3Get "bucket" "k" = .ok out ∧
      (failCollect "stream interrupted").collect out =
        .error "stream interrupted") := by
  refine ⟨by decide, ?_⟩
  exact (c9_errors_identify_stage (failCollect "stream interrupted") demoTiming
    "bucket" { path := "k", algo := none } _ (by decide)).2.1
    "stream interrupted" rfl

/-- C10: startup requires `BUCKET_NAME`: when absent the process aborts with
the source's message before serving any request; when set, that single bucket
name is passed to `put_object` for every invocation, and the handler consults
the S3 stage only at that bucket. -/
theorem c10_bucket_required_and_fixed (envVars : String → Option String) :
    (envVars "BUCKET_NAME" = none →
      mainStartup envVars = .error
        "A BUCKET_NAME must be set in this app's Lambda environment variables." ∧
      ∀ s tm ev, service envVars s tm ev = .error
        "A BUCKET_NAME must be set in this app's Lambda environment variables.") ∧
    (∀ bucket, envVars "BUCKET_NAME" = some bucket →
      mainStartup envVars = .ok bucket ∧
      ∀ s tm ev, service envVars s tm ev = .ok (put_object s tm bucket ev)) ∧
    (∀ bucket (s : Stages) f tm ev, (∀ k, f bucket k = s.s3Get bucket k) →
      put_object { s with s3Get := f } tm bucket ev =
        put_object s tm bucket ev) := by
  refine ⟨?_, ?_, ?_⟩
  · intro hnone
    constructor
    · simp [mainStartup, hnone]
    · intro s tm ev; simp [service, mainStartup, hnone]
  · intro bucket hsome
    constructor
    · simp [mainStartup, hsome]
    · intro s tm ev; simp [service, mainStartup, hsome]
  · intro bucket s f tm ev hagree
    simp only [put_object, hagree ev.path]

/-- C10 witness: startup aborts without `BUCKET_NAME`, and with it every
invocation uses that bucket. -/
theorem c10_bucket_required_and_fixed_witness :
    mainStartup (fun _ => none) = .error
      "A BUCKET_NAME must be set in this app's Lambda environment variables." ∧
    service (fun v => if v = "BUCKET_NAME" then some "the-bucket" else none)
        demoStages demoTiming { path := "k", algo := none } =
      .ok (put_object demoStages demoTiming "the-bucket"
        { path := "k", algo := none }) := by
  constructor
  · exact ((c10_bucket_required_and_fixed (fun _ => none)).1 rfl).1
  · exact ((c10_bucket_required_and_fixed
      (fun v => if v = "BUCKET_NAME" then some "the-bucket" else none)).2.1
      "the-bucket" (by decide)).2 demoStages demoTiming
      { path := "k", algo := none }

end ImageHash
